import Mathlib

/-!
# Performance schema connection slice (`storage/perfschema/pfs_con_slice.h`)

A shallow embedding of `struct PFS_connection_slice`: five has-stats flags,
five array pointers, and the inline `set_* / read_* / write_*` accessors plus
`reset_stats`.  The statistic arrays live outside the slice; they are kept in
a typed heap, one address space per record type.
-/

namespace PFS

/-! ## Pointers and statistic records -/

/-- A raw array pointer: an address. -/
abbrev Ptr := Nat

/-- The null pointer, which the readers return for "no data". -/
def NULL : Ptr := 0

/-- Modelled from the spec: `struct PFS_single_stat` is only forward-declared
in the header.  A wait record holds cumulative counts and timings. -/
structure PFS_single_stat where
  m_count : Nat
  m_sum : Nat
deriving DecidableEq, Repr

/-- Modelled from the spec: `struct PFS_stage_stat` is only forward-declared
in the header.  A stage record holds cumulative counts and timings. -/
structure PFS_stage_stat where
  m_count : Nat
  m_sum : Nat
deriving DecidableEq, Repr

/-- Modelled from the spec: `struct PFS_statement_stat` is only
forward-declared in the header.  A statement record holds cumulative counts
and timings. -/
structure PFS_statement_stat where
  m_count : Nat
  m_sum : Nat
deriving DecidableEq, Repr

/-- Modelled from the spec: `struct PFS_transaction_stat` is only
forward-declared in the header.  A transaction record holds cumulative counts
and timings. -/
structure PFS_transaction_stat where
  m_count : Nat
  m_sum : Nat
deriving DecidableEq, Repr

/-- Modelled from the spec: `struct PFS_memory_stat` is only forward-declared
in the header.  A memory record holds a live counter and the baseline that
differential reports subtract from it. -/
structure PFS_memory_stat where
  m_current : Int
  m_baseline : Int
deriving DecidableEq, Repr

/-- Modelled from the spec: the per-record reset of a wait record, which
overwrites it with the zero value. -/
def PFS_single_stat.reset (_r : PFS_single_stat) : PFS_single_stat :=
  { m_count := 0, m_sum := 0 }

/-- Modelled from the spec: the per-record reset of a stage record, which
overwrites it with the zero value. -/
def PFS_stage_stat.reset (_r : PFS_stage_stat) : PFS_stage_stat :=
  { m_count := 0, m_sum := 0 }

/-- Modelled from the spec: the per-record reset of a statement record, which
overwrites it with the zero value. -/
def PFS_statement_stat.reset (_r : PFS_statement_stat) : PFS_statement_stat :=
  { m_count := 0, m_sum := 0 }

/-- Modelled from the spec: the per-record reset of a transaction record,
which overwrites it with the zero value. -/
def PFS_transaction_stat.reset (_r : PFS_transaction_stat) : PFS_transaction_stat :=
  { m_count := 0, m_sum := 0 }

/-- Modelled from the spec: the per-record rebase of a memory record, which
stores the current accumulated value as the new zero-point and keeps the live
counter. -/
def PFS_memory_stat.rebase (r : PFS_memory_stat) : PFS_memory_stat :=
  { r with m_baseline := r.m_current }

/-- The differential value a memory record reports: current minus baseline. -/
def PFS_memory_stat.delta (r : PFS_memory_stat) : Int :=
  r.m_current - r.m_baseline

/-! ## Categories, the slice and the heap -/

/-- The five statistic categories of a slice. -/
inductive Category where
  | waits
  | stages
  | statements
  | transactions
  | memory
deriving DecidableEq, Repr

/-- The record type of each category. -/
abbrev Rec : Category → Type
  | .waits => PFS_single_stat
  | .stages => PFS_stage_stat
  | .statements => PFS_statement_stat
  | .transactions => PFS_transaction_stat
  | .memory => PFS_memory_stat

/-- The private members of `struct PFS_connection_slice`. -/
structure PFS_connection_slice where
  m_has_waits_stats : Bool
  m_has_stages_stats : Bool
  m_has_statements_stats : Bool
  m_has_transactions_stats : Bool
  m_has_memory_stats : Bool
  m_instr_class_waits_stats : Ptr
  m_instr_class_stages_stats : Ptr
  m_instr_class_statements_stats : Ptr
  m_instr_class_transactions_stats : Ptr
  m_instr_class_memory_stats : Ptr
deriving DecidableEq, Repr

/-- A history event: an array was attached to a category, or a category's
reset / rebase pass ran over the array at a pointer. -/
inductive Event where
  | attach (c : Category) (p : Ptr)
  | reset (c : Category) (p : Ptr)
deriving DecidableEq, Repr

/-- The memory outside the slice: for each record type, the array stored at
each address.  `log` is a history of attach and reset events, newest first; it
is bookkeeping for stating properties and no accessor reads it. -/
structure Heap where
  waits : Ptr → List PFS_single_stat
  stages : Ptr → List PFS_stage_stat
  statements : Ptr → List PFS_statement_stat
  transactions : Ptr → List PFS_transaction_stat
  memory : Ptr → List PFS_memory_stat
  log : List Event

/-! ## The member functions -/

/-- Inline `reset_stats()`: clears the five flags. -/
def reset_stats (s : PFS_connection_slice) : PFS_connection_slice :=
  { s with
    m_has_waits_stats := false
    m_has_stages_stats := false
    m_has_statements_stats := false
    m_has_transactions_stats := false
    m_has_memory_stats := false }

/-- Modelled from the spec: the body of `reset_waits_stats()` is not in the
header.  It overwrites every record of the attached wait array with the zero
value. -/
def reset_waits_stats (s : PFS_connection_slice) (h : Heap) : Heap :=
  { h with
    waits := Function.update h.waits s.m_instr_class_waits_stats
      ((h.waits s.m_instr_class_waits_stats).map PFS_single_stat.reset)
    log := Event.reset .waits s.m_instr_class_waits_stats :: h.log }

/-- Modelled from the spec: the body of `reset_stages_stats()` is not in the
header.  It overwrites every record of the attached stage array with the zero
value. -/
def reset_stages_stats (s : PFS_connection_slice) (h : Heap) : Heap :=
  { h with
    stages := Function.update h.stages s.m_instr_class_stages_stats
      ((h.stages s.m_instr_class_stages_stats).map PFS_stage_stat.reset)
    log := Event.reset .stages s.m_instr_class_stages_stats :: h.log }

/-- Modelled from the spec: the body of `reset_statements_stats()` is not in
the header.  It overwrites every record of the attached statement array with
the zero value. -/
def reset_statements_stats (s : PFS_connection_slice) (h : Heap) : Heap :=
  { h with
    statements := Function.update h.statements s.m_instr_class_statements_stats
      ((h.statements s.m_instr_class_statements_stats).map PFS_statement_stat.reset)
    log := Event.reset .statements s.m_instr_class_statements_stats :: h.log }

/-- Modelled from the spec: the body of `reset_transactions_stats()` is not
in the header.  It overwrites every record of the attached transaction array
with the zero value. -/
def reset_transactions_stats (s : PFS_connection_slice) (h : Heap) : Heap :=
  { h with
    transactions := Function.update h.transactions s.m_instr_class_transactions_stats
      ((h.transactions s.m_instr_class_transactions_stats).map PFS_transaction_stat.reset)
    log := Event.reset .transactions s.m_instr_class_transactions_stats :: h.log }

/-- Modelled from the spec: the body of `rebase_memory_stats()` is not in the
header.  It rebases every record of the attached memory array. -/
def rebase_memory_stats (s : PFS_connection_slice) (h : Heap) : Heap :=
  { h with
    memory := Function.update h.memory s.m_instr_class_memory_stats
      ((h.memory s.m_instr_class_memory_stats).map PFS_memory_stat.rebase)
    log := Event.reset .memory s.m_instr_class_memory_stats :: h.log }

/-- `set_instr_class_waits_stats(array)`. -/
def set_instr_class_waits_stats (s : PFS_connection_slice) (array : Ptr) :
    PFS_connection_slice :=
  { s with m_has_waits_stats := false, m_instr_class_waits_stats := array }

/-- `read_instr_class_waits_stats() const`. -/
def read_instr_class_waits_stats (s : PFS_connection_slice) : Ptr :=
  if !s.m_has_waits_stats then NULL else s.m_instr_class_waits_stats

/-- `write_instr_class_waits_stats()`: returned pointer, slice, heap. -/
def write_instr_class_waits_stats (s : PFS_connection_slice) (h : Heap) :
    Ptr × PFS_connection_slice × Heap :=
  if !s.m_has_waits_stats then
    let h1 := reset_waits_stats s h
    let s1 := { s with m_has_waits_stats := true }
    (s1.m_instr_class_waits_stats, s1, h1)
  else
    (s.m_instr_class_waits_stats, s, h)

/-- `set_instr_class_stages_stats(array)`. -/
def set_instr_class_stages_stats (s : PFS_connection_slice) (array : Ptr) :
    PFS_connection_slice :=
  { s with m_has_stages_stats := false, m_instr_class_stages_stats := array }

/-- `read_instr_class_stages_stats() const`. -/
def read_instr_class_stages_stats (s : PFS_connection_slice) : Ptr :=
  if !s.m_has_stages_stats then NULL else s.m_instr_class_stages_stats

/-- `write_instr_class_stages_stats()`: returned pointer, slice, heap. -/
def write_instr_class_stages_stats (s : PFS_connection_slice) (h : Heap) :
    Ptr × PFS_connection_slice × Heap :=
  if !s.m_has_stages_stats then
    let h1 := reset_stages_stats s h
    let s1 := { s with m_has_stages_stats := true }
    (s1.m_instr_class_stages_stats, s1, h1)
  else
    (s.m_instr_class_stages_stats, s, h)

/-- `set_instr_class_statements_stats(array)`. -/
def set_instr_class_statements_stats (s : PFS_connection_slice) (array : Ptr) :
    PFS_connection_slice :=
  { s with m_has_statements_stats := false, m_instr_class_statements_stats := array }

/-- `read_instr_class_statements_stats() const`. -/
def read_instr_class_statements_stats (s : PFS_connection_slice) : Ptr :=
  if !s.m_has_statements_stats then NULL else s.m_instr_class_statements_stats

/-- `write_instr_class_statements_stats()`: returned pointer, slice, heap. -/
def write_instr_class_statements_stats (s : PFS_connection_slice) (h : Heap) :
    Ptr × PFS_connection_slice × Heap :=
  if !s.m_has_statements_stats then
    let h1 := reset_statements_stats s h
    let s1 := { s with m_has_statements_stats := true }
    (s1.m_instr_class_statements_stats, s1, h1)
  else
    (s.m_instr_class_statements_stats, s, h)

/-- `set_instr_class_transactions_stats(array)`. -/
def set_instr_class_transactions_stats (s : PFS_connection_slice) (array : Ptr) :
    PFS_connection_slice :=
  { s with m_has_transactions_stats := false, m_instr_class_transactions_stats := array }

/-- `read_instr_class_transactions_stats() const`. -/
def read_instr_class_transactions_stats (s : PFS_connection_slice) : Ptr :=
  if !s.m_has_transactions_stats then NULL else s.m_instr_class_transactions_stats

/-- `write_instr_class_transactions_stats()`: returned pointer, slice, heap. -/
def write_instr_class_transactions_stats (s : PFS_connection_slice) (h : Heap) :
    Ptr × PFS_connection_slice × Heap :=
  if !s.m_has_transactions_stats then
    let h1 := reset_transactions_stats s h
    let s1 := { s with m_has_transactions_stats := true }
    (s1.m_instr_class_transactions_stats, s1, h1)
  else
    (s.m_instr_class_transactions_stats, s, h)

/-- `set_instr_class_memory_stats(array)`. -/
def set_instr_class_memory_stats (s : PFS_connection_slice) (array : Ptr) :
    PFS_connection_slice :=
  { s with m_has_memory_stats := false, m_instr_class_memory_stats := array }

/-- `read_instr_class_memory_stats() const`. -/
def read_instr_class_memory_stats (s : PFS_connection_slice) : Ptr :=
  if !s.m_has_memory_stats then NULL else s.m_instr_class_memory_stats

/-- `write_instr_class_memory_stats()`: returned pointer, slice, heap. -/
def write_instr_class_memory_stats (s : PFS_connection_slice) (h : Heap) :
    Ptr × PFS_connection_slice × Heap :=
  if !s.m_has_memory_stats then
    let h1 := rebase_memory_stats s h
    let s1 := { s with m_has_memory_stats := true }
    (s1.m_instr_class_memory_stats, s1, h1)
  else
    (s.m_instr_class_memory_stats, s, h)

/-! ## Category-indexed views of the members and accessors -/

/-- The has-stats flag of category `c`. -/
def flag (s : PFS_connection_slice) : Category → Bool
  | .waits => s.m_has_waits_stats
  | .stages => s.m_has_stages_stats
  | .statements => s.m_has_statements_stats
  | .transactions => s.m_has_transactions_stats
  | .memory => s.m_has_memory_stats

/-- The array pointer of category `c`. -/
def ptr (s : PFS_connection_slice) : Category → Ptr
  | .waits => s.m_instr_class_waits_stats
  | .stages => s.m_instr_class_stages_stats
  | .statements => s.m_instr_class_statements_stats
  | .transactions => s.m_instr_class_transactions_stats
  | .memory => s.m_instr_class_memory_stats

/-- The arrays of category `c` in the heap, by address. -/
def Heap.arr (h : Heap) : (c : Category) → Ptr → List (Rec c)
  | .waits => h.waits
  | .stages => h.stages
  | .statements => h.statements
  | .transactions => h.transactions
  | .memory => h.memory

/-- The setter of category `c`. -/
def set_C (c : Category) (s : PFS_connection_slice) (array : Ptr) : PFS_connection_slice :=
  match c with
  | .waits => set_instr_class_waits_stats s array
  | .stages => set_instr_class_stages_stats s array
  | .statements => set_instr_class_statements_stats s array
  | .transactions => set_instr_class_transactions_stats s array
  | .memory => set_instr_class_memory_stats s array

/-- The reader of category `c`. -/
def read_C (c : Category) (s : PFS_connection_slice) : Ptr :=
  match c with
  | .waits => read_instr_class_waits_stats s
  | .stages => read_instr_class_stages_stats s
  | .statements => read_instr_class_statements_stats s
  | .transactions => read_instr_class_transactions_stats s
  | .memory => read_instr_class_memory_stats s

/-- The writer of category `c`. -/
def write_C (c : Category) (s : PFS_connection_slice) (h : Heap) :
    Ptr × PFS_connection_slice × Heap :=
  match c with
  | .waits => write_instr_class_waits_stats s h
  | .stages => write_instr_class_stages_stats s h
  | .statements => write_instr_class_statements_stats s h
  | .transactions => write_instr_class_transactions_stats s h
  | .memory => write_instr_class_memory_stats s h

/-- The per-record reset (for memory, rebase) of category `c`. -/
def resetRec : (c : Category) → Rec c → Rec c
  | .waits => PFS_single_stat.reset
  | .stages => PFS_stage_stat.reset
  | .statements => PFS_statement_stat.reset
  | .transactions => PFS_transaction_stat.reset
  | .memory => PFS_memory_stat.rebase

/-- A record of category `c` is at its neutral value: all-zero for the four
zero-reset categories, zero differential (baseline equal to the live counter)
for memory. -/
def neutral : (c : Category) → Rec c → Prop
  | .waits => fun r => r = { m_count := 0, m_sum := 0 }
  | .stages => fun r => r = { m_count := 0, m_sum := 0 }
  | .statements => fun r => r = { m_count := 0, m_sum := 0 }
  | .transactions => fun r => r = { m_count := 0, m_sum := 0 }
  | .memory => fun r => r.delta = 0

/-! ## Construction, operations and runs -/

/-- Scenario data: a slice in which no category has data, every flag false
and the five pointers as given. -/
def no_data_slice (pw ps pst pt pm : Ptr) : PFS_connection_slice :=
  { m_has_waits_stats := false
    m_has_stages_stats := false
    m_has_statements_stats := false
    m_has_transactions_stats := false
    m_has_memory_stats := false
    m_instr_class_waits_stats := pw
    m_instr_class_stages_stats := ps
    m_instr_class_statements_stats := pst
    m_instr_class_transactions_stats := pt
    m_instr_class_memory_stats := pm }

/-- Construction of a slice.  `struct PFS_connection_slice` declares no
constructor and no member initialisers, so constructing a slice assigns no
member: the five flags and the five pointers alike hold what the storage
held. -/
def construct (storage : PFS_connection_slice) : PFS_connection_slice :=
  storage

/-- Scenario data: zero-filled storage, every flag false and every pointer
null. -/
def zero_filled : PFS_connection_slice :=
  no_data_slice NULL NULL NULL NULL NULL

/-- Scenario data: storage left over from an earlier use, with the wait flag
true and the wait pointer at address 5. -/
def stale_storage : PFS_connection_slice :=
  { no_data_slice 5 0 0 0 0 with m_has_waits_stats := true }

/-- A slice together with the memory its pointers refer to. -/
structure World where
  slice : PFS_connection_slice
  heap : Heap

/-- A call of one public member function. -/
inductive Op where
  | set (c : Category) (array : Ptr)
  | read (c : Category)
  | write (c : Category)
  | reset_stats
deriving DecidableEq, Repr

/-- The state after one call.  A setter call is recorded in the history; the
readers are `const` and get the slice only. -/
def step (w : World) : Op → World
  | .set c array =>
    { slice := set_C c w.slice array
      heap := { w.heap with log := Event.attach c array :: w.heap.log } }
  | .read _ => w
  | .write c => { slice := (write_C c w.slice w.heap).2.1, heap := (write_C c w.slice w.heap).2.2 }
  | .reset_stats => { w with slice := reset_stats w.slice }

/-- The value one call returns: a pointer for readers and writers, nothing
for the `void` functions. -/
def result (w : World) : Op → Option Ptr
  | .set _ _ => none
  | .read c => some (read_C c w.slice)
  | .write c => some (write_C c w.slice w.heap).1
  | .reset_stats => none

/-- The state after a sequence of calls, first call first. -/
def run (w : World) (ops : List Op) : World :=
  ops.foldl step w

/-- A caller mutation: the caller rewrites, in place, the records of the
category `c` array at pointer `p`. -/
def mutate (c : Category) (p : Ptr) (f : List (Rec c) → List (Rec c)) (h : Heap) : Heap :=
  match c, f with
  | .waits, f => { h with waits := Function.update h.waits p (f (h.waits p)) }
  | .stages, f => { h with stages := Function.update h.stages p (f (h.stages p)) }
  | .statements, f => { h with statements := Function.update h.statements p (f (h.statements p)) }
  | .transactions, f =>
    { h with transactions := Function.update h.transactions p (f (h.transactions p)) }
  | .memory, f => { h with memory := Function.update h.memory p (f (h.memory p)) }

/-- A sequence of writer calls of category `c`, each followed by a caller
mutation through the pointer that call returned.  Gives the pointers returned,
in call order, and the final state. -/
def write_loop (c : Category) : List (List (Rec c) → List (Rec c)) → World → List Ptr × World
  | [], w => ([], w)
  | f :: fs, w =>
    let r := write_C c w.slice w.heap
    let w1 : World := { slice := r.2.1, heap := mutate c r.1 f r.2.2 }
    ((r.1 :: (write_loop c fs w1).1), (write_loop c fs w1).2)

/-- Scanning the history from the newest event: a reset of category `c` over
pointer `p` is met before any attach of category `c`. -/
def resetSinceAttach (c : Category) (p : Ptr) : List Event → Bool
  | [] => false
  | Event.reset c1 p1 :: rest =>
    if c1 = c ∧ p1 = p then true else resetSinceAttach c p rest
  | Event.attach c1 _ :: rest =>
    if c1 = c then false else resetSinceAttach c p rest

/-- The reachable-state invariant: whenever the flag of a category is true,
the array at its current pointer was reset after the last attach. -/
def Inv (w : World) : Prop :=
  ∀ c, flag w.slice c = true → resetSinceAttach c (ptr w.slice c) w.heap.log = true

/-- A heap in which every array is empty and nothing has happened yet. -/
def empty_heap : Heap :=
  { waits := fun _ => []
    stages := fun _ => []
    statements := fun _ => []
    transactions := fun _ => []
    memory := fun _ => []
    log := [] }

/-- Scenario data: wait array A at address 1 with four classes and array B at
address 2 with eight classes, both holding leftover values. -/
def scenario_heap : Heap :=
  { empty_heap with
    waits := fun p =>
      if p = 1 then List.replicate 4 { m_count := 77, m_sum := 99 }
      else if p = 2 then List.replicate 8 { m_count := 13, m_sum := 31 }
      else [] }

/-- Scenario data: a slice whose wait flag is set and points at a stale
address. -/
def scenario_slice : PFS_connection_slice :=
  { no_data_slice 9 0 0 0 0 with m_has_waits_stats := true }

/-- Scenario data: the caller raises the count of wait class 2 by five. -/
def bump_class_2 (a : List PFS_single_stat) : List PFS_single_stat :=
  a.modify (fun r => { r with m_count := r.m_count + 5 }) 2

/-- Modelled from the spec: an increment recorded after a rebase applies a
delta to the live counter of a memory record and leaves the baseline alone. -/
def PFS_memory_stat.add (r : PFS_memory_stat) (d : Int) : PFS_memory_stat :=
  { r with m_current := r.m_current + d }

/-! ## The generic slot of the design notes -/

/-- The generic slot as the design notes word it: one array pointer and one
has-stats flag. -/
structure Slot where
  array_pointer : Ptr
  has_stats_flag : Bool
deriving DecidableEq, Repr

/-- Generic attach: stores the pointer and unconditionally sets the flag to
false. -/
def Slot.set (_sl : Slot) (array : Ptr) : Slot :=
  { array_pointer := array, has_stats_flag := false }

/-- Generic read: the array if the flag is true, "no data" if it is false. -/
def Slot.read (sl : Slot) : Ptr :=
  if sl.has_stats_flag then sl.array_pointer else NULL

/-- Generic write with a per-record reset policy: if the flag is false, first
apply the policy to every record of the array, then set the flag to true;
then return the array regardless of the prior flag. -/
def Slot.write {α : Type} (policy : α → α) (sl : Slot) (mem : Ptr → List α) :
    Ptr × Slot × (Ptr → List α) :=
  if sl.has_stats_flag then
    (sl.array_pointer, sl, mem)
  else
    (sl.array_pointer, { sl with has_stats_flag := true },
      Function.update mem sl.array_pointer ((mem sl.array_pointer).map policy))

/-- Generic bulk reset of one slot: clears the flag. -/
def Slot.clear (sl : Slot) : Slot :=
  { sl with has_stats_flag := false }

/-- The slot of category `c` inside a slice. -/
def slot_of (s : PFS_connection_slice) (c : Category) : Slot :=
  { array_pointer := ptr s c, has_stats_flag := flag s c }

/-- The slice made of five slots. -/
def slice_of (f : Category → Slot) : PFS_connection_slice :=
  { m_has_waits_stats := (f .waits).has_stats_flag
    m_has_stages_stats := (f .stages).has_stats_flag
    m_has_statements_stats := (f .statements).has_stats_flag
    m_has_transactions_stats := (f .transactions).has_stats_flag
    m_has_memory_stats := (f .memory).has_stats_flag
    m_instr_class_waits_stats := (f .waits).array_pointer
    m_instr_class_stages_stats := (f .stages).array_pointer
    m_instr_class_statements_stats := (f .statements).array_pointer
    m_instr_class_transactions_stats := (f .transactions).array_pointer
    m_instr_class_memory_stats := (f .memory).array_pointer }

/-! ## Statement-level execution of the accessor bodies -/

/-- One statement of an accessor body: an assignment to a flag member, an
assignment to a pointer member, or the call of a reset function. -/
inductive Stmt where
  | assign_flag (c : Category) (b : Bool)
  | assign_ptr (c : Category) (array : Ptr)
  | call_reset (c : Category)
deriving DecidableEq, Repr

/-- The assignment `m_has_C_stats= b;`. -/
def assign_flag (s : PFS_connection_slice) (c : Category) (b : Bool) : PFS_connection_slice :=
  match c with
  | .waits => { s with m_has_waits_stats := b }
  | .stages => { s with m_has_stages_stats := b }
  | .statements => { s with m_has_statements_stats := b }
  | .transactions => { s with m_has_transactions_stats := b }
  | .memory => { s with m_has_memory_stats := b }

/-- The assignment `m_instr_class_C_stats= array;`. -/
def assign_ptr (s : PFS_connection_slice) (c : Category) (array : Ptr) : PFS_connection_slice :=
  match c with
  | .waits => { s with m_instr_class_waits_stats := array }
  | .stages => { s with m_instr_class_stages_stats := array }
  | .statements => { s with m_instr_class_statements_stats := array }
  | .transactions => { s with m_instr_class_transactions_stats := array }
  | .memory => { s with m_instr_class_memory_stats := array }

/-- The reset call each writer makes: `reset_C_stats();` for the four
zero-reset categories, `rebase_memory_stats();` for memory. -/
def call_reset (c : Category) (s : PFS_connection_slice) (h : Heap) : Heap :=
  match c with
  | .waits => reset_waits_stats s h
  | .stages => reset_stages_stats s h
  | .statements => reset_statements_stats s h
  | .transactions => reset_transactions_stats s h
  | .memory => rebase_memory_stats s h

/-- The state after one statement.  Storing a pointer is the moment of attach
and is recorded in the history. -/
def exec_stmt (w : World) : Stmt → World
  | .assign_flag c b => { w with slice := assign_flag w.slice c b }
  | .assign_ptr c array =>
    { slice := assign_ptr w.slice c array
      heap := { w.heap with log := Event.attach c array :: w.heap.log } }
  | .call_reset c => { w with heap := call_reset c w.slice w.heap }

/-- The statements a call executes from state `w`, in source order: the setter
clears the flag, then stores the pointer; the writer, on a false flag, calls
the reset, then sets the flag; `reset_stats` clears the five flags in
declaration order; the reader assigns nothing. -/
def body (w : World) : Op → List Stmt
  | .set c array => [.assign_flag c false, .assign_ptr c array]
  | .read _ => []
  | .write c => if !flag w.slice c then [.call_reset c, .assign_flag c true] else []
  | .reset_stats =>
    [.assign_flag .waits false, .assign_flag .stages false, .assign_flag .statements false,
      .assign_flag .transactions false, .assign_flag .memory false]

/-- The intermediate state of a call from state `w` after its first `k`
statements. -/
def exec_upto (w : World) (op : Op) (k : Nat) : World :=
  ((body w op).take k).foldl exec_stmt w

/-- Relative to a start state `w0`: every array in the heap of `w` is either
as it was in `w0` or is that array with the reset (memory: rebase) of its
category applied to every record. -/
def ArraysResetOrOld (w0 w : World) : Prop :=
  ∀ c p, w.heap.arr c p = w0.heap.arr c p ∨
    w.heap.arr c p = (w0.heap.arr c p).map (resetRec c)

/-- Relative to a start state `w0`: whenever the flag of a category is true
in `w`, the array at its current pointer is the array `w0` held there with the
reset (memory: rebase) of the category applied to every record. -/
def FlaggedArraysReset (w0 w : World) : Prop :=
  ∀ c, flag w.slice c = true →
    w.heap.arr c (ptr w.slice c) = (w0.heap.arr c (ptr w.slice c)).map (resetRec c)

/-- Scenario data: a slice whose memory flag is true and whose memory pointer
is address 1. -/
def memory_slice : PFS_connection_slice :=
  { no_data_slice 0 0 0 0 1 with m_has_memory_stats := true }

/-- Scenario data: a heap whose memory array at address 1 is one record with
live counter `v` and baseline 0. -/
def memory_heap (v : Int) : Heap :=
  { empty_heap with
    memory := fun p => if p = 1 then [{ m_current := v, m_baseline := 0 }] else [] }

/-! ## Basic facts about the accessors -/

theorem read_C_eq (c : Category) (s : PFS_connection_slice) :
    read_C c s = if flag s c then ptr s c else NULL := by
  cases c <;>
    simp [read_C, flag, ptr, read_instr_class_waits_stats, read_instr_class_stages_stats,
      read_instr_class_statements_stats, read_instr_class_transactions_stats,
      read_instr_class_memory_stats] <;>
    split <;> simp_all

theorem flag_set_C_same (c : Category) (s : PFS_connection_slice) (a : Ptr) :
    flag (set_C c s a) c = false := by
  cases c <;> rfl

theorem ptr_set_C_same (c : Category) (s : PFS_connection_slice) (a : Ptr) :
    ptr (set_C c s a) c = a := by
  cases c <;> rfl

theorem flag_set_C_other {c d : Category} (hcd : c ≠ d) (s : PFS_connection_slice) (a : Ptr) :
    flag (set_C c s a) d = flag s d := by
  cases c <;> cases d <;> first | rfl | exact absurd rfl hcd

theorem ptr_set_C_other {c d : Category} (hcd : c ≠ d) (s : PFS_connection_slice) (a : Ptr) :
    ptr (set_C c s a) d = ptr s d := by
  cases c <;> cases d <;> first | rfl | exact absurd rfl hcd

theorem write_C_of_flag (c : Category) (s : PFS_connection_slice) (h : Heap)
    (hf : flag s c = true) : write_C c s h = (ptr s c, s, h) := by
  cases c <;>
    simp_all [write_C, flag, ptr, write_instr_class_waits_stats,
      write_instr_class_stages_stats, write_instr_class_statements_stats,
      write_instr_class_transactions_stats, write_instr_class_memory_stats]

theorem write_C_fst (c : Category) (s : PFS_connection_slice) (h : Heap) :
    (write_C c s h).1 = ptr s c := by
  cases c <;>
    simp [write_C, ptr, write_instr_class_waits_stats,
      write_instr_class_stages_stats, write_instr_class_statements_stats,
      write_instr_class_transactions_stats, write_instr_class_memory_stats] <;>
    split <;> rfl

theorem write_C_flag_same (c : Category) (s : PFS_connection_slice) (h : Heap) :
    flag (write_C c s h).2.1 c = true := by
  cases c <;>
    simp [write_C, flag, write_instr_class_waits_stats,
      write_instr_class_stages_stats, write_instr_class_statements_stats,
      write_instr_class_transactions_stats, write_instr_class_memory_stats] <;>
    split <;> simp_all

theorem write_C_ptr (c d : Category) (s : PFS_connection_slice) (h : Heap) :
    ptr (write_C c s h).2.1 d = ptr s d := by
  cases c <;>
    simp [write_C, write_instr_class_waits_stats,
      write_instr_class_stages_stats, write_instr_class_statements_stats,
      write_instr_class_transactions_stats, write_instr_class_memory_stats] <;>
    split <;> cases d <;> rfl

theorem write_C_flag_other {c d : Category} (hcd : c ≠ d) (s : PFS_connection_slice)
    (h : Heap) : flag (write_C c s h).2.1 d = flag s d := by
  cases c <;>
    simp [write_C, write_instr_class_waits_stats,
      write_instr_class_stages_stats, write_instr_class_statements_stats,
      write_instr_class_transactions_stats, write_instr_class_memory_stats] <;>
    split <;> cases d <;> first | rfl | exact absurd rfl hcd

theorem write_C_arr_other {c d : Category} (hcd : c ≠ d) (s : PFS_connection_slice)
    (h : Heap) : (write_C c s h).2.2.arr d = h.arr d := by
  cases c <;>
    simp [write_C, write_instr_class_waits_stats, reset_waits_stats,
      write_instr_class_stages_stats, reset_stages_stats,
      write_instr_class_statements_stats, reset_statements_stats,
      write_instr_class_transactions_stats, reset_transactions_stats,
      write_instr_class_memory_stats, rebase_memory_stats] <;>
    split <;> cases d <;> first | rfl | exact absurd rfl hcd

theorem write_C_log (c : Category) (s : PFS_connection_slice) (h : Heap) :
    (write_C c s h).2.2.log =
      if flag s c then h.log else Event.reset c (ptr s c) :: h.log := by
  cases c <;>
    simp [write_C, flag, ptr, write_instr_class_waits_stats, reset_waits_stats,
      write_instr_class_stages_stats, reset_stages_stats,
      write_instr_class_statements_stats, reset_statements_stats,
      write_instr_class_transactions_stats, reset_transactions_stats,
      write_instr_class_memory_stats, rebase_memory_stats] <;>
    split <;> simp_all

theorem write_C_arr_same (c : Category) (s : PFS_connection_slice) (h : Heap)
    (hf : flag s c = false) :
    (write_C c s h).2.2.arr c =
      Function.update (h.arr c) (ptr s c) ((h.arr c (ptr s c)).map (resetRec c)) := by
  cases c <;>
    simp_all [write_C, flag, ptr, Heap.arr, resetRec, write_instr_class_waits_stats,
      reset_waits_stats, write_instr_class_stages_stats, reset_stages_stats,
      write_instr_class_statements_stats, reset_statements_stats,
      write_instr_class_transactions_stats, reset_transactions_stats,
      write_instr_class_memory_stats, rebase_memory_stats]

theorem mutate_log (c : Category) (p : Ptr) (f : List (Rec c) → List (Rec c)) (h : Heap) :
    (mutate c p f h).log = h.log := by
  cases c <;> rfl

theorem mutate_arr_same (c : Category) (p : Ptr) (f : List (Rec c) → List (Rec c))
    (h : Heap) : (mutate c p f h).arr c = Function.update (h.arr c) p (f (h.arr c p)) := by
  cases c <;> rfl

theorem mutate_arr_other {c d : Category} (hcd : c ≠ d) (p : Ptr)
    (f : List (Rec c) → List (Rec c)) (h : Heap) : (mutate c p f h).arr d = h.arr d := by
  cases c <;> cases d <;> first | rfl | exact absurd rfl hcd

theorem neutral_resetRec (c : Category) (r : Rec c) : neutral c (resetRec c r) := by
  cases c <;>
    simp [neutral, resetRec, PFS_single_stat.reset, PFS_stage_stat.reset,
      PFS_statement_stat.reset, PFS_transaction_stat.reset, PFS_memory_stat.rebase,
      PFS_memory_stat.delta]

theorem flag_reset_stats (s : PFS_connection_slice) (c : Category) :
    flag (reset_stats s) c = false := by
  cases c <;> rfl

theorem ptr_reset_stats (s : PFS_connection_slice) (c : Category) :
    ptr (reset_stats s) c = ptr s c := by
  cases c <;> rfl

/-! ## Claims C1, C2 -/

/-- C1: for every category, every slice state and every array pointer, the
reader returns NULL right after the setter. -/
theorem C1_read_after_set_is_null (c : Category) (s : PFS_connection_slice) (arr : Ptr) :
    read_C c (set_C c s arr) = NULL := by
  cases c <;> rfl

/-- C2: for every category and array pointer, the first write after an attach
returns that pointer, the array behind it is the old array with the category's
reset (memory: rebase) applied to every record, every record is at the neutral
value, and the flag is true afterwards. -/
theorem C2_first_write_resets (c : Category) (s : PFS_connection_slice) (h : Heap) (arr : Ptr) :
    (write_C c (set_C c s arr) h).1 = arr ∧
    (write_C c (set_C c s arr) h).2.2.arr c arr = (h.arr c arr).map (resetRec c) ∧
    (∀ r ∈ (write_C c (set_C c s arr) h).2.2.arr c arr, neutral c r) ∧
    flag (write_C c (set_C c s arr) h).2.1 c = true := by
  cases c <;>
    simp [write_C, set_C, Heap.arr, resetRec, neutral, flag,
      write_instr_class_waits_stats, set_instr_class_waits_stats, reset_waits_stats,
      write_instr_class_stages_stats, set_instr_class_stages_stats, reset_stages_stats,
      write_instr_class_statements_stats, set_instr_class_statements_stats,
      reset_statements_stats,
      write_instr_class_transactions_stats, set_instr_class_transactions_stats,
      reset_transactions_stats,
      write_instr_class_memory_stats, set_instr_class_memory_stats, rebase_memory_stats,
      PFS_single_stat.reset, PFS_stage_stat.reset, PFS_statement_stat.reset,
      PFS_transaction_stat.reset, PFS_memory_stat.rebase, PFS_memory_stat.delta]

theorem foldl_mutate_log (c : Category) (p : Ptr) (fs : List (List (Rec c) → List (Rec c)))
    (h : Heap) : (fs.foldl (fun h g => mutate c p g h) h).log = h.log := by
  induction fs generalizing h with
  | nil => rfl
  | cons g gs ih => simp [List.foldl_cons, ih, mutate_log]

theorem foldl_mutate_arr (c : Category) (p : Ptr) (fs : List (List (Rec c) → List (Rec c)))
    (h : Heap) :
    (fs.foldl (fun h g => mutate c p g h) h).arr c p = fs.foldl (fun a g => g a) (h.arr c p) := by
  induction fs generalizing h with
  | nil => rfl
  | cons g gs ih => simp [List.foldl_cons, ih, mutate_arr_same]

theorem write_loop_of_flag (c : Category) (fs : List (List (Rec c) → List (Rec c)))
    (w : World) (hf : flag w.slice c = true) :
    write_loop c fs w =
      (List.replicate fs.length (ptr w.slice c),
        { slice := w.slice, heap := fs.foldl (fun h g => mutate c (ptr w.slice c) g h) w.heap }) := by
  induction fs generalizing w with
  | nil => rfl
  | cons g gs ih =>
    simp only [write_loop, write_C_of_flag c w.slice w.heap hf]
    rw [ih { slice := w.slice, heap := mutate c (ptr w.slice c) g w.heap } hf]
    simp [List.replicate_succ]

theorem Inv_of_flags_false (w : World) (h0 : ∀ c, flag w.slice c = false) : Inv w := by
  intro c hc
  rw [h0 c] at hc
  exact absurd hc (by decide)

theorem Inv_step (w : World) (op : Op) (hw : Inv w) : Inv (step w op) := by
  cases op with
  | set c a =>
    intro d hd
    by_cases hcd : c = d
    · subst hcd
      simp only [step] at hd
      rw [flag_set_C_same] at hd
      exact absurd hd (by decide)
    · simp only [step] at hd ⊢
      rw [flag_set_C_other hcd] at hd
      rw [ptr_set_C_other hcd]
      simpa [resetSinceAttach, hcd] using hw d hd
  | read c => exact hw
  | write c =>
    intro d hd
    simp only [step] at hd ⊢
    rw [write_C_ptr, write_C_log]
    by_cases hfc : flag w.slice c = true
    · rw [write_C_of_flag c _ _ hfc] at hd
      simpa [hfc] using hw d hd
    · by_cases hcd : c = d
      · subst hcd
        simp [hfc, resetSinceAttach]
      · rw [write_C_flag_other hcd] at hd
        simpa [hfc, resetSinceAttach, hcd] using hw d hd
  | reset_stats =>
    intro d hd
    cases d <;> exact absurd hd (by simp [step, reset_stats, flag])

theorem Inv_run (ops : List Op) (w : World) (hw : Inv w) : Inv (run w ops) := by
  induction ops generalizing w with
  | nil => exact hw
  | cons op rest ih => exact ih (step w op) (Inv_step w op hw)

/-! ## Claims C3 to C10 -/

/-- C3: after an attach, for every sequence of one or more writer calls, each
followed by an arbitrary caller mutation of the returned array: every call
returns the attached pointer, the history gains exactly one reset event (from
the first call), the slice is the one the first call left, the array holds
the mutations applied in order to the once-reset array, and one more writer
call changes neither slice nor heap. -/
theorem C3_reset_once (c : Category) (s : PFS_connection_slice) (h : Heap) (arr : Ptr)
    (f : List (Rec c) → List (Rec c)) (fs : List (List (Rec c) → List (Rec c))) :
    (write_loop c (f :: fs) ⟨set_C c s arr, h⟩).1 = List.replicate (fs.length + 1) arr ∧
    (write_loop c (f :: fs) ⟨set_C c s arr, h⟩).2.heap.log = Event.reset c arr :: h.log ∧
    (write_loop c (f :: fs) ⟨set_C c s arr, h⟩).2.slice = (write_C c (set_C c s arr) h).2.1 ∧
    (write_loop c (f :: fs) ⟨set_C c s arr, h⟩).2.heap.arr c arr =
      fs.foldl (fun a g => g a) (f ((h.arr c arr).map (resetRec c))) ∧
    write_C c (write_loop c (f :: fs) ⟨set_C c s arr, h⟩).2.slice
        (write_loop c (f :: fs) ⟨set_C c s arr, h⟩).2.heap =
      (arr, (write_loop c (f :: fs) ⟨set_C c s arr, h⟩).2.slice,
        (write_loop c (f :: fs) ⟨set_C c s arr, h⟩).2.heap) := by
  have hp : (write_C c (set_C c s arr) h).1 = arr := by
    rw [write_C_fst, ptr_set_C_same]
  have hloop := write_loop_of_flag c fs
    { slice := (write_C c (set_C c s arr) h).2.1,
      heap := mutate c arr f (write_C c (set_C c s arr) h).2.2 }
    (write_C_flag_same c _ h)
  simp only [write_C_ptr, ptr_set_C_same] at hloop
  simp only [write_loop, hp, hloop]
  refine ⟨by simp [List.replicate_succ], ?_, trivial, ?_, ?_⟩
  · rw [foldl_mutate_log, mutate_log, write_C_log, flag_set_C_same, ptr_set_C_same]
    simp
  · rw [foldl_mutate_arr, mutate_arr_same, write_C_arr_same c _ h (flag_set_C_same c s arr),
      ptr_set_C_same]
    simp
  · rw [write_C_of_flag c _ _ (write_C_flag_same c _ h), write_C_ptr, ptr_set_C_same]

/-- C4: for every category, array pointer and caller mutation: after attach,
write and the mutation, the reader returns the attached pointer and the array
there is the mutation applied to the freshly reset array; after attaching a
new array the reader returns NULL. -/
theorem C4_read_sees_mutation (c : Category) (s : PFS_connection_slice) (h : Heap)
    (arr B : Ptr) (f : List (Rec c) → List (Rec c)) :
    read_C c (write_C c (set_C c s arr) h).2.1 = arr ∧
    (mutate c (write_C c (set_C c s arr) h).1 f (write_C c (set_C c s arr) h).2.2).arr c
        (read_C c (write_C c (set_C c s arr) h).2.1) =
      f ((h.arr c arr).map (resetRec c)) ∧
    read_C c (set_C c (write_C c (set_C c s arr) h).2.1 B) = NULL := by
  have hr : read_C c (write_C c (set_C c s arr) h).2.1 = arr := by
    rw [read_C_eq, write_C_flag_same, write_C_ptr, ptr_set_C_same]
    simp
  refine ⟨hr, ?_, ?_⟩
  · rw [hr, write_C_fst, ptr_set_C_same, mutate_arr_same,
      write_C_arr_same c _ h (flag_set_C_same c s arr), ptr_set_C_same]
    simp
  · rw [read_C_eq, flag_set_C_same]
    simp

/-- C4, the scenario: four wait classes at array A (address 1) holding
leftovers; after attach, write and raising class 2 by five, the reader returns
A with class 2 at 5 and classes 0, 1, 3 at 0; after attaching B (address 2,
eight leftover records) the reader returns NULL. -/
theorem C4_scenario :
    read_C .waits (write_C .waits (set_C .waits scenario_slice 1) scenario_heap).2.1 = 1 ∧
    (mutate .waits (write_C .waits (set_C .waits scenario_slice 1) scenario_heap).1
        bump_class_2 (write_C .waits (set_C .waits scenario_slice 1) scenario_heap).2.2).arr
        .waits (read_C .waits (write_C .waits (set_C .waits scenario_slice 1) scenario_heap).2.1) =
      [{ m_count := 0, m_sum := 0 }, { m_count := 0, m_sum := 0 },
       { m_count := 5, m_sum := 0 }, { m_count := 0, m_sum := 0 }] ∧
    read_C .waits
        (set_C .waits (write_C .waits (set_C .waits scenario_slice 1) scenario_heap).2.1 2) =
      NULL :=
  (C4_read_sees_mutation .waits scenario_slice scenario_heap 1 2 bump_class_2).imp_right
    (And.imp_left (fun e => e.trans (by decide)))

/-- C5: for every slice state, after `reset_stats()` each of the five flags is
false and each of the five readers returns NULL. -/
theorem C5_reset_stats_clears_all (s : PFS_connection_slice) (c : Category) :
    flag (reset_stats s) c = false ∧ read_C c (reset_stats s) = NULL := by
  cases c <;> exact ⟨rfl, rfl⟩

/-- C6: for distinct categories C and D and every state, the setter of C and
the writer of C each leave the flag of D, the pointer of D, every array of
the record type of D and the result of the reader of D unchanged. -/
theorem C6_categories_independent (c d : Category) (hcd : c ≠ d) (w : World) (arr : Ptr) :
    (flag (step w (.set c arr)).slice d = flag w.slice d ∧
      ptr (step w (.set c arr)).slice d = ptr w.slice d ∧
      (step w (.set c arr)).heap.arr d = w.heap.arr d ∧
      read_C d (step w (.set c arr)).slice = read_C d w.slice) ∧
    (flag (step w (.write c)).slice d = flag w.slice d ∧
      ptr (step w (.write c)).slice d = ptr w.slice d ∧
      (step w (.write c)).heap.arr d = w.heap.arr d ∧
      read_C d (step w (.write c)).slice = read_C d w.slice) := by
  simp only [step]
  refine ⟨⟨flag_set_C_other hcd _ arr, ptr_set_C_other hcd _ arr, ?_, ?_⟩,
    ⟨write_C_flag_other hcd _ _, write_C_ptr c d _ _, write_C_arr_other hcd _ _, ?_⟩⟩
  · cases d <;> rfl
  · rw [read_C_eq, read_C_eq, flag_set_C_other hcd, ptr_set_C_other hcd]
  · rw [read_C_eq, read_C_eq, write_C_flag_other hcd, write_C_ptr]

/-- C6, an instance: waits against memory, from a fresh slice over the scenario heap. -/
theorem C6_categories_independent_witness :
    Category.waits ≠ Category.memory ∧
    ((flag (step ⟨no_data_slice 1 0 0 0 3, scenario_heap⟩ (.set .waits 1)).slice .memory =
        flag (no_data_slice 1 0 0 0 3) .memory ∧
      ptr (step ⟨no_data_slice 1 0 0 0 3, scenario_heap⟩ (.set .waits 1)).slice .memory =
        ptr (no_data_slice 1 0 0 0 3) .memory ∧
      (step ⟨no_data_slice 1 0 0 0 3, scenario_heap⟩ (.set .waits 1)).heap.arr .memory =
        scenario_heap.arr .memory ∧
      read_C .memory (step ⟨no_data_slice 1 0 0 0 3, scenario_heap⟩ (.set .waits 1)).slice =
        read_C .memory (no_data_slice 1 0 0 0 3)) ∧
    (flag (step ⟨no_data_slice 1 0 0 0 3, scenario_heap⟩ (.write .waits)).slice .memory =
        flag (no_data_slice 1 0 0 0 3) .memory ∧
      ptr (step ⟨no_data_slice 1 0 0 0 3, scenario_heap⟩ (.write .waits)).slice .memory =
        ptr (no_data_slice 1 0 0 0 3) .memory ∧
      (step ⟨no_data_slice 1 0 0 0 3, scenario_heap⟩ (.write .waits)).heap.arr .memory =
        scenario_heap.arr .memory ∧
      read_C .memory (step ⟨no_data_slice 1 0 0 0 3, scenario_heap⟩ (.write .waits)).slice =
        read_C .memory (no_data_slice 1 0 0 0 3))) :=
  ⟨by decide,
    C6_categories_independent .waits .memory (by decide) ⟨no_data_slice 1 0 0 0 3, scenario_heap⟩ 1⟩

/-- C7: for every category and state, a reader call leaves the whole state
(flags, pointers, every array, and the history, so no reset ran) as it was,
and a second reader call returns what the first returned. -/
theorem C7_read_changes_nothing (c : Category) (w : World) :
    step w (.read c) = w ∧
    result (step w (.read c)) (.read c) = result w (.read c) :=
  ⟨rfl, rfl⟩

/-- C8 as stated fails: after attaching the null pointer and writing once, the
wait flag is true and the reader still returns NULL. -/
theorem C8_counterexample :
    ¬ (read_C .waits
          (run ⟨no_data_slice NULL NULL NULL NULL NULL, empty_heap⟩
            [.set .waits NULL, .write .waits]).slice = NULL ↔
        flag (run ⟨no_data_slice NULL NULL NULL NULL NULL, empty_heap⟩
            [.set .waits NULL, .write .waits]).slice .waits = false) := by
  decide

/-- C8, amended: for every category and state the reader returns NULL when the
flag is false and the attached pointer when the flag is true; so it returns
NULL exactly when the flag is false or the attached pointer is NULL. -/
theorem C8_read_result (c : Category) (s : PFS_connection_slice) :
    read_C c s = (if flag s c then ptr s c else NULL) ∧
    (read_C c s = NULL ↔ (flag s c = false ∨ ptr s c = NULL)) := by
  refine ⟨read_C_eq c s, ?_⟩
  rw [read_C_eq]
  cases hf : flag s c <;> simp

/-- C9 as stated fails: a slice constructed over storage whose wait flag was
true reads back the stale pointer, not NULL. -/
theorem C9_counterexample :
    flag (construct stale_storage) .waits = true ∧
    read_C .waits (construct stale_storage) = 5 ∧
    read_C .waits (construct stale_storage) ≠ NULL := by
  decide

/-- C9, amended: construction assigns nothing, so the reader of a freshly
constructed slice returns NULL when the storage held a false flag for the
category (zero-filled storage in particular) and the stored pointer
otherwise; after `reset_stats()` on the fresh slice every reader returns
NULL, whatever the storage held. -/
theorem C9_fresh_slice_read (c : Category) (storage : PFS_connection_slice) :
    read_C c (construct storage) = (if flag storage c then ptr storage c else NULL) ∧
    read_C c (construct zero_filled) = NULL ∧
    read_C c (reset_stats (construct storage)) = NULL := by
  refine ⟨read_C_eq c storage, ?_, ?_⟩
  · cases c <;> rfl
  · cases c <;> rfl

theorem resetRec_idem (c : Category) (r : Rec c) : resetRec c (resetRec c r) = resetRec c r := by
  cases c <;> rfl

theorem map_resetRec_idem (c : Category) (l : List (Rec c)) :
    (l.map (resetRec c)).map (resetRec c) = l.map (resetRec c) := by
  rw [List.map_map]
  exact List.map_congr_left (fun r _ => resetRec_idem c r)

theorem step_set_arr (w : World) (c : Category) (a : Ptr) (d : Category) :
    (step w (.set c a)).heap.arr d = w.heap.arr d := by
  cases d <;> rfl

theorem arrays_step (w0 w : World) (op : Op) (hw : ArraysResetOrOld w0 w) :
    ArraysResetOrOld w0 (step w op) := by
  cases op with
  | set c a =>
    intro d p
    rw [step_set_arr]
    exact hw d p
  | read c => exact hw
  | write c =>
    intro d p
    simp only [step]
    cases hf : flag w.slice c
    · by_cases hcd : c = d
      · subst hcd
        rw [write_C_arr_same c _ _ hf]
        by_cases hp : p = ptr w.slice c
        · subst hp
          rw [Function.update_same]
          right
          rcases hw c (ptr w.slice c) with e | e
          · rw [e]
          · rw [e, map_resetRec_idem]
        · rw [Function.update_noteq hp]
          exact hw c p
      · rw [write_C_arr_other hcd]
        exact hw d p
    · rw [write_C_of_flag c _ _ hf]
      exact hw d p
  | reset_stats => exact hw

theorem flagged_step (w0 w : World) (op : Op) (ha : ArraysResetOrOld w0 w)
    (hw : FlaggedArraysReset w0 w) : FlaggedArraysReset w0 (step w op) := by
  cases op with
  | set c a =>
    intro d hd
    by_cases hcd : c = d
    · subst hcd
      simp only [step] at hd
      rw [flag_set_C_same] at hd
      exact absurd hd (by decide)
    · rw [step_set_arr]
      simp only [step] at hd ⊢
      rw [flag_set_C_other hcd] at hd
      rw [ptr_set_C_other hcd]
      exact hw d hd
  | read c => exact hw
  | write c =>
    intro d hd
    simp only [step] at hd ⊢
    rw [write_C_ptr]
    cases hf : flag w.slice c
    · by_cases hcd : c = d
      · subst hcd
        rw [write_C_arr_same c _ _ hf, Function.update_same]
        rcases ha c (ptr w.slice c) with e | e
        · rw [e]
        · rw [e, map_resetRec_idem]
      · rw [write_C_flag_other hcd] at hd
        rw [write_C_arr_other hcd]
        exact hw d hd
    · rw [write_C_of_flag c _ _ hf] at hd ⊢
      exact hw d hd
  | reset_stats =>
    intro d hd
    exact absurd hd (by simp [step, flag_reset_stats])

theorem arrays_run (w0 : World) (ops : List Op) (w : World)
    (ha : ArraysResetOrOld w0 w) (hw : FlaggedArraysReset w0 w) :
    ArraysResetOrOld w0 (run w ops) ∧ FlaggedArraysReset w0 (run w ops) := by
  induction ops generalizing w with
  | nil => exact ⟨ha, hw⟩
  | cons op rest ih => exact ih (step w op) (arrays_step w0 w op ha) (flagged_step w0 w op ha hw)

theorem flagged_run_of_flags_false (w0 : World) (ops : List Op)
    (h0 : ∀ c, flag w0.slice c = false) : FlaggedArraysReset w0 (run w0 ops) :=
  (arrays_run w0 ops w0 (fun _ _ => Or.inl rfl)
    (fun c hc => absurd hc (by rw [h0 c]; decide))).2

/-- C10: in every state reached from a state with all five flags false by any
sequence of setter, reader, writer and `reset_stats` calls, a category whose
flag is true has had its reset (memory: rebase) run over the array at its
current pointer after the last attach of that category, and that array is the
one the start state held there with the reset applied to every record, so
every record of it is neutral. -/
theorem C10_flag_implies_reset (w0 : World) (ops : List Op)
    (h0 : ∀ c, flag w0.slice c = false) (c : Category)
    (hf : flag (run w0 ops).slice c = true) :
    resetSinceAttach c (ptr (run w0 ops).slice c) (run w0 ops).heap.log = true ∧
    (run w0 ops).heap.arr c (ptr (run w0 ops).slice c) =
      (w0.heap.arr c (ptr (run w0 ops).slice c)).map (resetRec c) ∧
    (∀ r ∈ (run w0 ops).heap.arr c (ptr (run w0 ops).slice c), neutral c r) := by
  have e := flagged_run_of_flags_false w0 ops h0 c hf
  refine ⟨Inv_run ops w0 (Inv_of_flags_false w0 h0) c hf, e, ?_⟩
  intro r hr
  rw [e] at hr
  obtain ⟨r0, _, rfl⟩ := List.mem_map.mp hr
  exact neutral_resetRec c r0

/-- C10, an instance: a run over the scenario heap that attaches, writes,
reads, bulk-resets and writes again; the wait flag ends true and the wait
array at address 1 holds four zero records. -/
theorem C10_flag_implies_reset_witness :
    (∀ c, flag (no_data_slice 0 0 0 0 0) c = false) ∧
    flag (run ⟨no_data_slice 0 0 0 0 0, scenario_heap⟩
      [.set .waits 1, .write .waits, .read .waits, .reset_stats, .set .memory 3,
        .write .memory, .write .waits]).slice .waits = true ∧
    (run ⟨no_data_slice 0 0 0 0 0, scenario_heap⟩
      [.set .waits 1, .write .waits, .read .waits, .reset_stats, .set .memory 3,
        .write .memory, .write .waits]).heap.arr .waits 1 =
      [{ m_count := 0, m_sum := 0 }, { m_count := 0, m_sum := 0 },
       { m_count := 0, m_sum := 0 }, { m_count := 0, m_sum := 0 }] ∧
    (resetSinceAttach .waits
        (ptr (run ⟨no_data_slice 0 0 0 0 0, scenario_heap⟩
          [.set .waits 1, .write .waits, .read .waits, .reset_stats, .set .memory 3,
            .write .memory, .write .waits]).slice .waits)
        (run ⟨no_data_slice 0 0 0 0 0, scenario_heap⟩
          [.set .waits 1, .write .waits, .read .waits, .reset_stats, .set .memory 3,
            .write .memory, .write .waits]).heap.log = true ∧
      (run ⟨no_data_slice 0 0 0 0 0, scenario_heap⟩
          [.set .waits 1, .write .waits, .read .waits, .reset_stats, .set .memory 3,
            .write .memory, .write .waits]).heap.arr .waits
          (ptr (run ⟨no_data_slice 0 0 0 0 0, scenario_heap⟩
            [.set .waits 1, .write .waits, .read .waits, .reset_stats, .set .memory 3,
              .write .memory, .write .waits]).slice .waits) =
        (scenario_heap.arr .waits
          (ptr (run ⟨no_data_slice 0 0 0 0 0, scenario_heap⟩
            [.set .waits 1, .write .waits, .read .waits, .reset_stats, .set .memory 3,
              .write .memory, .write .waits]).slice .waits)).map (resetRec .waits) ∧
      (∀ r ∈ (run ⟨no_data_slice 0 0 0 0 0, scenario_heap⟩
          [.set .waits 1, .write .waits, .read .waits, .reset_stats, .set .memory 3,
            .write .memory, .write .waits]).heap.arr .waits
          (ptr (run ⟨no_data_slice 0 0 0 0 0, scenario_heap⟩
            [.set .waits 1, .write .waits, .read .waits, .reset_stats, .set .memory 3,
              .write .memory, .write .waits]).slice .waits),
        neutral .waits r)) :=
  ⟨fun c => by cases c <;> rfl, by decide, by decide,
    C10_flag_implies_reset ⟨no_data_slice 0 0 0 0 0, scenario_heap⟩
      [.set .waits 1, .write .waits, .read .waits, .reset_stats, .set .memory 3,
        .write .memory, .write .waits]
      (fun c => by cases c <;> rfl) .waits (by decide)⟩

/-! ## Claims C12 to C18 -/

theorem foldl_add_delta (deltas : List Int) (r : PFS_memory_stat) :
    (deltas.foldl PFS_memory_stat.add r).delta = r.delta + deltas.sum ∧
    (deltas.foldl PFS_memory_stat.add r).m_current = r.m_current + deltas.sum := by
  induction deltas generalizing r with
  | nil => simp
  | cons d ds ih =>
    simp only [List.foldl_cons, List.sum_cons]
    rw [(ih (r.add d)).1, (ih (r.add d)).2]
    simp only [PFS_memory_stat.add, PFS_memory_stat.delta]
    constructor <;> ring

/-- C12: for the memory category, the first write after an attach rebases the
array: every record then reports a zero differential and keeps its live
counter, and after any sequence of deltas applied to such a record the
differential equals the sum of the deltas. -/
theorem C12_rebase_round_trip (s : PFS_connection_slice) (h : Heap) (arr : Ptr) :
    (write_C .memory (set_C .memory s arr) h).2.2.memory arr =
      (h.memory arr).map PFS_memory_stat.rebase ∧
    ((write_C .memory (set_C .memory s arr) h).2.2.memory arr).map
        (fun r => r.m_current) = (h.memory arr).map (fun r => r.m_current) ∧
    (∀ r ∈ (write_C .memory (set_C .memory s arr) h).2.2.memory arr,
      r.delta = 0 ∧
      ∀ deltas : List Int, (deltas.foldl PFS_memory_stat.add r).delta = deltas.sum) := by
  have e : (write_C .memory (set_C .memory s arr) h).2.2.memory arr =
      (h.memory arr).map PFS_memory_stat.rebase := by
    have := congrFun (write_C_arr_same .memory _ h (flag_set_C_same .memory s arr)) arr
    rw [ptr_set_C_same] at this
    simpa [Heap.arr, resetRec] using this
  refine ⟨e, ?_, ?_⟩
  · rw [e, List.map_map]
    rfl
  · intro r hr
    rw [e] at hr
    obtain ⟨r0, _, rfl⟩ := List.mem_map.mp hr
    have h0 : r0.rebase.delta = 0 := by simp [PFS_memory_stat.rebase, PFS_memory_stat.delta]
    refine ⟨h0, fun deltas => ?_⟩
    rw [(foldl_add_delta deltas _).1, h0, zero_add]

/-- C14 as stated fails for memory: with the memory flag true and a live
counter of 7 (or 9) recorded, after `reset_stats()` the next write returns the
attached array with the counter 7 (or 9) still in it, so two states that differ
only in what was recorded before `reset_stats()` give different arrays. -/
theorem C14_counterexample :
    flag memory_slice .memory = true ∧
    result (step ⟨memory_slice, memory_heap 7⟩ .reset_stats) (.write .memory) = some 1 ∧
    read_C .memory
      (step (step ⟨memory_slice, memory_heap 7⟩ .reset_stats) (.write .memory)).slice = 1 ∧
    (step (step ⟨memory_slice, memory_heap 7⟩ .reset_stats) (.write .memory)).heap.memory 1 =
      [{ m_current := 7, m_baseline := 7 }] ∧
    (step (step ⟨memory_slice, memory_heap 9⟩ .reset_stats) (.write .memory)).heap.memory 1 =
      [{ m_current := 9, m_baseline := 9 }] ∧
    (step (step ⟨memory_slice, memory_heap 7⟩ .reset_stats) (.write .memory)).heap.memory 1 ≠
      (step (step ⟨memory_slice, memory_heap 9⟩ .reset_stats) (.write .memory)).heap.memory 1 := by
  decide

/-- C14, amended: for every category and state, after `reset_stats()` the
reader returns NULL, and the next writer call returns the attached pointer,
leaves the array there as the old array with the reset (memory: rebase)
applied to every record, so every record is neutral, records one reset event,
sets the flag, and the reader then returns that pointer.  For waits, stages,
statements and transactions the array is then all zero records, whatever was
recorded before; for memory every differential is zero and the live counters
recorded before are kept. -/
theorem C14_write_after_reset_stats (c : Category) (w : World) :
    read_C c (step w .reset_stats).slice = NULL ∧
    result (step w .reset_stats) (.write c) = some (ptr w.slice c) ∧
    (step (step w .reset_stats) (.write c)).heap.arr c (ptr w.slice c) =
      (w.heap.arr c (ptr w.slice c)).map (resetRec c) ∧
    (∀ r ∈ (step (step w .reset_stats) (.write c)).heap.arr c (ptr w.slice c), neutral c r) ∧
    (step (step w .reset_stats) (.write c)).heap.log =
      Event.reset c (ptr w.slice c) :: w.heap.log ∧
    flag (step (step w .reset_stats) (.write c)).slice c = true ∧
    read_C c (step (step w .reset_stats) (.write c)).slice = ptr w.slice c ∧
    (step (step w .reset_stats) (.write .waits)).heap.waits (ptr w.slice .waits) =
      List.replicate (w.heap.waits (ptr w.slice .waits)).length { m_count := 0, m_sum := 0 } ∧
    (step (step w .reset_stats) (.write .stages)).heap.stages (ptr w.slice .stages) =
      List.replicate (w.heap.stages (ptr w.slice .stages)).length { m_count := 0, m_sum := 0 } ∧
    (step (step w .reset_stats) (.write .statements)).heap.statements
        (ptr w.slice .statements) =
      List.replicate (w.heap.statements (ptr w.slice .statements)).length
        { m_count := 0, m_sum := 0 } ∧
    (step (step w .reset_stats) (.write .transactions)).heap.transactions
        (ptr w.slice .transactions) =
      List.replicate (w.heap.transactions (ptr w.slice .transactions)).length
        { m_count := 0, m_sum := 0 } ∧
    ((step (step w .reset_stats) (.write .memory)).heap.memory (ptr w.slice .memory)).map
        (fun r => r.m_current) =
      (w.heap.memory (ptr w.slice .memory)).map (fun r => r.m_current) ∧
    (∀ r ∈ (step (step w .reset_stats) (.write .memory)).heap.memory (ptr w.slice .memory),
      r.delta = 0) := by
  have e : ∀ d, (step (step w .reset_stats) (.write d)).heap.arr d (ptr w.slice d) =
      (w.heap.arr d (ptr w.slice d)).map (resetRec d) := by
    intro d
    simp only [step]
    rw [write_C_arr_same d _ _ (flag_reset_stats _ d), ptr_reset_stats]
    simp
  have ew := e .waits
  have es := e .stages
  have est := e .statements
  have et := e .transactions
  have em := e .memory
  simp only [Heap.arr, resetRec] at ew es est et em
  refine ⟨?_, ?_, e c, ?_, ?_, ?_, ?_, ?_, ?_, ?_, ?_, ?_, ?_⟩
  · simp only [step]
    rw [read_C_eq, flag_reset_stats]
    simp
  · simp only [step, result]
    rw [write_C_fst, ptr_reset_stats]
  · intro r hr
    rw [e c] at hr
    obtain ⟨r0, _, rfl⟩ := List.mem_map.mp hr
    exact neutral_resetRec c r0
  · simp only [step]
    rw [write_C_log, flag_reset_stats, ptr_reset_stats]
    simp
  · simp only [step]
    exact write_C_flag_same c _ _
  · simp only [step]
    rw [read_C_eq, write_C_flag_same, write_C_ptr, ptr_reset_stats]
    simp
  · rw [ew]
    exact List.map_const' _ _
  · rw [es]
    exact List.map_const' _ _
  · rw [est]
    exact List.map_const' _ _
  · rw [et]
    exact List.map_const' _ _
  · rw [em, List.map_map]
    rfl
  · intro r hr
    rw [em] at hr
    obtain ⟨r0, _, rfl⟩ := List.mem_map.mp hr
    simp [PFS_memory_stat.rebase, PFS_memory_stat.delta]

/-- C14, an instance: a wait slice whose flag is true and whose array at
address 1 holds recorded values; after `reset_stats()` and one write the four
records are zero and the reader returns address 1. -/
theorem C14_scenario :
    (step (step ⟨{ no_data_slice 1 0 0 0 0 with m_has_waits_stats := true }, scenario_heap⟩
        .reset_stats) (.write .waits)).heap.arr .waits 1 =
      [{ m_count := 0, m_sum := 0 }, { m_count := 0, m_sum := 0 },
       { m_count := 0, m_sum := 0 }, { m_count := 0, m_sum := 0 }] ∧
    read_C .waits
      (step (step ⟨{ no_data_slice 1 0 0 0 0 with m_has_waits_stats := true }, scenario_heap⟩
        .reset_stats) (.write .waits)).slice = 1 :=
  ⟨(C14_write_after_reset_stats .waits
      ⟨{ no_data_slice 1 0 0 0 0 with m_has_waits_stats := true }, scenario_heap⟩).2.2.1.trans
      (by decide),
    (C14_write_after_reset_stats .waits
      ⟨{ no_data_slice 1 0 0 0 0 with m_has_waits_stats := true }, scenario_heap⟩).2.2.2.2.2.2.1⟩

/-- C15: each writer, when its own flag is false, leaves the heap exactly as
its own reset function does (waits, stages, statements, transactions: the
zero-reset of that category; memory: `rebase_memory_stats`) and otherwise
leaves the heap alone; the history gains one reset event of the own category
in the first case and nothing in the second. -/
theorem C15_write_calls_own_reset (s : PFS_connection_slice) (h : Heap) :
    ((write_instr_class_waits_stats s h).2.2 =
        if s.m_has_waits_stats then h else reset_waits_stats s h) ∧
    ((write_instr_class_stages_stats s h).2.2 =
        if s.m_has_stages_stats then h else reset_stages_stats s h) ∧
    ((write_instr_class_statements_stats s h).2.2 =
        if s.m_has_statements_stats then h else reset_statements_stats s h) ∧
    ((write_instr_class_transactions_stats s h).2.2 =
        if s.m_has_transactions_stats then h else reset_transactions_stats s h) ∧
    ((write_instr_class_memory_stats s h).2.2 =
        if s.m_has_memory_stats then h else rebase_memory_stats s h) ∧
    (∀ c, (write_C c s h).2.2.log =
        if flag s c then h.log else Event.reset c (ptr s c) :: h.log) := by
  refine ⟨?_, ?_, ?_, ?_, ?_, fun c => write_C_log c s h⟩
  · cases hf : s.m_has_waits_stats <;> simp [write_instr_class_waits_stats, hf]
  · cases hf : s.m_has_stages_stats <;> simp [write_instr_class_stages_stats, hf]
  · cases hf : s.m_has_statements_stats <;> simp [write_instr_class_statements_stats, hf]
  · cases hf : s.m_has_transactions_stats <;> simp [write_instr_class_transactions_stats, hf]
  · cases hf : s.m_has_memory_stats <;> simp [write_instr_class_memory_stats, hf]

/-- C17: for every state, `reset_stats()` leaves each of the five pointers and
the whole heap (every array and the history) as they were. -/
theorem C17_reset_stats_frame (w : World) (c : Category) :
    ptr (step w .reset_stats).slice c = ptr w.slice c ∧
    (step w .reset_stats).heap = w.heap :=
  ⟨ptr_reset_stats _ c, rfl⟩

theorem slice_of_slot_of (s : PFS_connection_slice) : slice_of (slot_of s) = s := rfl

theorem slot_of_slice_of (f : Category → Slot) : slot_of (slice_of f) = f := by
  funext c
  cases c <;> rfl

/-- C16: the slice is a product of five generic slots.  The slice and its five
slots determine each other; for every category the setter, reader and writer
equal the generic set, read and write (with the reset or rebase of that
category as policy) on that slot and the identity on the other four slots and
on the arrays of the other four record types; `reset_stats` equals clearing
all five slots. -/
theorem C16_slice_is_product_of_slots (c : Category) (s : PFS_connection_slice) (h : Heap)
    (arr : Ptr) :
    (slice_of (slot_of s) = s ∧ ∀ f, slot_of (slice_of f) = f) ∧
    set_C c s arr = slice_of (Function.update (slot_of s) c ((slot_of s c).set arr)) ∧
    read_C c s = (slot_of s c).read ∧
    (write_C c s h).1 = (Slot.write (resetRec c) (slot_of s c) (h.arr c)).1 ∧
    (write_C c s h).2.1 =
      slice_of (Function.update (slot_of s) c
        (Slot.write (resetRec c) (slot_of s c) (h.arr c)).2.1) ∧
    (write_C c s h).2.2.arr =
      Function.update h.arr c (Slot.write (resetRec c) (slot_of s c) (h.arr c)).2.2 ∧
    reset_stats s = slice_of (fun d => (slot_of s d).clear) := by
  refine ⟨⟨rfl, slot_of_slice_of⟩, ?_, ?_, ?_, ?_, ?_, rfl⟩
  · cases c <;> rfl
  · rw [read_C_eq]
    rfl
  · rw [write_C_fst]
    simp only [Slot.write, slot_of]
    split <;> rfl
  · cases hf : flag s c
    · cases c <;>
        simp_all [write_C, flag, ptr, slot_of, slice_of, Slot.write, Function.update,
          write_instr_class_waits_stats, write_instr_class_stages_stats,
          write_instr_class_statements_stats, write_instr_class_transactions_stats,
          write_instr_class_memory_stats]
    · rw [write_C_of_flag c s h hf]
      cases s
      cases c <;> simp_all [flag, ptr, slot_of, slice_of, Slot.write, Function.update]
  · funext d
    by_cases hcd : c = d
    · subst hcd
      rw [Function.update_same]
      cases hf : flag s c
      · rw [write_C_arr_same c s h hf]
        simp [Slot.write, slot_of, hf]
      · rw [write_C_of_flag c s h hf]
        simp [Slot.write, slot_of, hf]
    · rw [write_C_arr_other hcd, Function.update_noteq (Ne.symm hcd)]

theorem body_eq_step (w : World) (op : Op) : (body w op).foldl exec_stmt w = step w op := by
  cases op with
  | set c a => cases c <;> rfl
  | read c => rfl
  | write c =>
    cases hf : flag w.slice c
    · cases c <;>
        simp_all [body, step, exec_stmt, call_reset, assign_flag, write_C, flag,
          write_instr_class_waits_stats, write_instr_class_stages_stats,
          write_instr_class_statements_stats, write_instr_class_transactions_stats,
          write_instr_class_memory_stats]
    · simp [body, step, hf, write_C_of_flag c _ _ hf]
  | reset_stats => rfl

theorem Inv_clear_flag (w : World) (c : Category) (hw : Inv w) :
    Inv (exec_stmt w (.assign_flag c false)) := by
  intro d hd
  have hfl : flag w.slice d = true := by
    cases c <;> cases d <;> first | exact hd | exact absurd hd (by simp [exec_stmt, assign_flag, flag])
  have hp : ptr (exec_stmt w (.assign_flag c false)).slice d = ptr w.slice d := by
    cases c <;> cases d <;> rfl
  rw [hp]
  exact hw d hfl

theorem Inv_call_reset (w : World) (c : Category) (hw : Inv w) :
    Inv (exec_stmt w (.call_reset c)) := by
  intro d hd
  have hl : (exec_stmt w (.call_reset c)).heap.log = Event.reset c (ptr w.slice c) :: w.heap.log := by
    cases c <;> rfl
  have hs : (exec_stmt w (.call_reset c)).slice = w.slice := rfl
  rw [hl, hs]
  rw [hs] at hd
  by_cases hcd : c = d
  · subst hcd
    simp [resetSinceAttach]
  · simpa [resetSinceAttach, hcd] using hw d hd

theorem Inv_foldl_clear (l : List Stmt) (w : World) (hw : Inv w)
    (hl : ∀ st ∈ l, ∃ c, st = Stmt.assign_flag c false) : Inv (l.foldl exec_stmt w) := by
  induction l generalizing w with
  | nil => exact hw
  | cons st rest ih =>
    obtain ⟨c, rfl⟩ := hl _ (List.mem_cons_self _ _)
    exact ih _ (Inv_clear_flag w c hw) (fun st hst => hl st (List.mem_cons_of_mem _ hst))

theorem Inv_exec_upto (w : World) (op : Op) (k : Nat) (hw : Inv w) :
    Inv (exec_upto w op k) := by
  have hfull : ∀ n, (body w op).length ≤ n → Inv (exec_upto w op n) := by
    intro n hn
    unfold exec_upto
    rw [List.take_of_length_le hn, body_eq_step]
    exact Inv_step w op hw
  cases op with
  | set c a =>
    match k with
    | 0 => exact hw
    | 1 => exact Inv_clear_flag w c hw
    | n + 2 => exact hfull _ (by simp [body])
  | read c => exact hfull _ (by simp [body])
  | write c =>
    cases hf : flag w.slice c
    · match k with
      | 0 => exact hw
      | 1 =>
        have : exec_upto w (.write c) 1 = exec_stmt w (.call_reset c) := by
          simp [exec_upto, body, hf]
        rw [this]
        exact Inv_call_reset w c hw
      | n + 2 => exact hfull _ (by simp [body, hf])
    · exact hfull _ (by simp [body, hf])
  | reset_stats =>
    unfold exec_upto
    refine Inv_foldl_clear _ w hw (fun st hst => ?_)
    have hm := List.mem_of_mem_take hst
    simp only [body, List.mem_cons, List.mem_singleton] at hm
    simp only [List.not_mem_nil, or_false] at hm
    rcases hm with h | h | h | h | h <;> exact ⟨_, h⟩

/-- C18: executing the body of any call statement by statement from a state
reached from all-flags-false, every intermediate state satisfies the
invariant: no category has its flag true unless its reset ran over the array
at its current pointer after the last attach.  Running the whole body gives
the state the call gives. -/
theorem C18_invariant_between_statements (w0 : World) (ops : List Op)
    (h0 : ∀ c, flag w0.slice c = false) (op : Op) (k : Nat) :
    Inv (exec_upto (run w0 ops) op k) ∧
    exec_upto (run w0 ops) op (body (run w0 ops) op).length = step (run w0 ops) op := by
  refine ⟨Inv_exec_upto _ op k (Inv_run ops w0 (Inv_of_flags_false w0 h0)), ?_⟩
  unfold exec_upto
  rw [List.take_length, body_eq_step]

/-- C18, an instance: after attach of address 1 and one write, the wait flag
is true; inside the next setter call, after its first statement, the flag is
false while the pointer is still the old one, and the invariant holds. -/
theorem C18_invariant_between_statements_witness :
    (∀ c, flag (no_data_slice 0 0 0 0 0) c = false) ∧
    flag (run ⟨no_data_slice 0 0 0 0 0, scenario_heap⟩ [.set .waits 1, .write .waits]).slice
      .waits = true ∧
    flag (exec_upto (run ⟨no_data_slice 0 0 0 0 0, scenario_heap⟩ [.set .waits 1, .write .waits])
      (.set .waits 2) 1).slice .waits = false ∧
    ptr (exec_upto (run ⟨no_data_slice 0 0 0 0 0, scenario_heap⟩ [.set .waits 1, .write .waits])
      (.set .waits 2) 1).slice .waits = 1 ∧
    (Inv (exec_upto (run ⟨no_data_slice 0 0 0 0 0, scenario_heap⟩ [.set .waits 1, .write .waits])
        (.set .waits 2) 1) ∧
      exec_upto (run ⟨no_data_slice 0 0 0 0 0, scenario_heap⟩ [.set .waits 1, .write .waits])
          (.set .waits 2)
          (body (run ⟨no_data_slice 0 0 0 0 0, scenario_heap⟩ [.set .waits 1, .write .waits])
            (.set .waits 2)).length =
        step (run ⟨no_data_slice 0 0 0 0 0, scenario_heap⟩ [.set .waits 1, .write .waits])
          (.set .waits 2)) :=
  ⟨fun c => by cases c <;> rfl, by decide, by decide, by decide,
    C18_invariant_between_statements ⟨no_data_slice 0 0 0 0 0, scenario_heap⟩
      [.set .waits 1, .write .waits] (fun c => by cases c <;> rfl) (.set .waits 2) 1⟩

theorem Inv_broken_by_swapped_setter :
    ¬ Inv (exec_stmt (run ⟨no_data_slice 0 0 0 0 0, scenario_heap⟩ [.set .waits 1, .write .waits])
      (.assign_ptr .waits 2)) :=
  fun h => absurd (h .waits (by decide)) (by decide)

theorem Inv_broken_by_swapped_writer :
    ¬ Inv (exec_stmt (run ⟨no_data_slice 0 0 0 0 0, scenario_heap⟩ [.set .waits 1])
      (.assign_flag .waits true)) :=
  fun h => absurd (h .waits (by decide)) (by decide)

end PFS
